import Mathlib

/-
Verification of the semantic ranking subsystem of pocket-mcp.

This file shallowly embeds the parts of the repository that the claims are
about:

* `src/src/utils/embeddings.ts` — `isRetryableError`, `createEmbedding`
  (retry policy), `cosineSimilarity`, `saveEmbedding`;
* `src/src/tools/search.ts` — the `defineTool` version of `semanticSearch`
  (recency/importance-weighted ranking) together with its zod schema;
* `src/src/tools/workflow.ts` — `saveWorkflowEmbedding` and `findWorkflow`.

JavaScript numbers are idealized as an inductive type `JsNum` with NaN, the
two infinities, and finite values taken to be real numbers (no rounding of
finite arithmetic, unsigned zero).  Fallible code is modelled with `Except`
or `Option`; the PocketBase collections are modelled as lists of records,
and the embedding provider / record fetches as explicit function parameters.
-/

namespace PocketMCP

/-- Idealized JavaScript (IEEE-754 double) number: NaN, an infinity
(`inf true` is positive infinity), or a finite value modelled as a real.
Finite arithmetic is exact and zeros are unsigned; this is faithful for the
computations modelled here, none of which overflow or branch on the sign of
zero. -/
inductive JsNum where
  | nan : JsNum
  | inf : Bool → JsNum
  | num : ℝ → JsNum

namespace JsNum

/-- JavaScript `+` on numbers (IEEE rules: NaN propagates, opposite
infinities give NaN). -/
noncomputable def jadd : JsNum → JsNum → JsNum
  | nan, _ => nan
  | _, nan => nan
  | inf s, inf t => if s = t then inf s else nan
  | inf s, num _ => inf s
  | num _, inf t => inf t
  | num a, num b => num (a + b)

/-- JavaScript `*` on numbers (IEEE rules: NaN propagates, `0 * ±∞ = NaN`,
signs multiply). -/
noncomputable def jmul : JsNum → JsNum → JsNum
  | nan, _ => nan
  | _, nan => nan
  | inf s, inf t => inf (s == t)
  | inf s, num b => if b = 0 then nan else inf (s == decide (0 < b))
  | num a, inf t => if a = 0 then nan else inf (t == decide (0 < a))
  | num a, num b => num (a * b)

/-- JavaScript `/` on numbers (IEEE rules: NaN propagates, `0/0 = NaN`,
`x/0 = ±∞` for finite nonzero `x` (zero is unsigned, i.e. `+0`),
`∞/∞ = NaN`, finite`/∞ = 0`). -/
noncomputable def jdiv : JsNum → JsNum → JsNum
  | nan, _ => nan
  | _, nan => nan
  | inf _, inf _ => nan
  | inf s, num b => if b = 0 then inf s else inf (s == decide (0 < b))
  | num _, inf _ => num 0
  | num a, num b =>
      if b = 0 then (if a = 0 then nan else inf (decide (0 < a)))
      else num (a / b)

/-- JavaScript `Math.sqrt` (NaN on negative arguments and on NaN,
`sqrt(+∞) = +∞`). -/
noncomputable def jsqrt : JsNum → JsNum
  | nan => nan
  | inf s => if s then inf true else nan
  | num a => if a < 0 then nan else num (Real.sqrt a)

/-- JavaScript `<` on numbers: any comparison with NaN is false. -/
noncomputable def jlt : JsNum → JsNum → Bool
  | nan, _ => false
  | _, nan => false
  | inf s, inf t => !s && t
  | inf s, num _ => !s
  | num _, inf t => t
  | num a, num b => decide (a < b)

/-- JavaScript `<=` on numbers: any comparison with NaN is false. -/
noncomputable def jle : JsNum → JsNum → Bool
  | nan, _ => false
  | _, nan => false
  | inf s, inf t => !s || t
  | inf s, num _ => !s
  | num _, inf t => t
  | num a, num b => decide (a ≤ b)

@[simp] theorem jadd_nan_left (x : JsNum) : jadd nan x = nan := by
  cases x <;> rfl

@[simp] theorem jadd_nan_right (x : JsNum) : jadd x nan = nan := by
  cases x <;> rfl

@[simp] theorem jadd_num_num (a b : ℝ) : jadd (num a) (num b) = num (a + b) := rfl

@[simp] theorem jmul_nan_left (x : JsNum) : jmul nan x = nan := by
  cases x <;> rfl

@[simp] theorem jmul_nan_right (x : JsNum) : jmul x nan = nan := by
  cases x <;> rfl

@[simp] theorem jmul_num_num (a b : ℝ) : jmul (num a) (num b) = num (a * b) := rfl

@[simp] theorem jdiv_nan_left (x : JsNum) : jdiv nan x = nan := by
  cases x <;> rfl

@[simp] theorem jdiv_nan_right (x : JsNum) : jdiv x nan = nan := by
  cases x <;> rfl

@[simp] theorem jsqrt_nan : jsqrt nan = nan := rfl

theorem jsqrt_num_of_nonneg {a : ℝ} (h : 0 ≤ a) :
    jsqrt (num a) = num (Real.sqrt a) := by
  simp [jsqrt, not_lt.mpr h]

theorem jdiv_num_num_of_ne {a b : ℝ} (h : b ≠ 0) :
    jdiv (num a) (num b) = num (a / b) := by
  simp [jdiv, h]

theorem jdiv_zero_zero : jdiv (num 0) (num 0) = nan := by
  simp [jdiv]

@[simp] theorem jlt_nan_left (x : JsNum) : jlt nan x = false := by
  cases x <;> rfl

@[simp] theorem jlt_nan_right (x : JsNum) : jlt x nan = false := by
  cases x <;> rfl

@[simp] theorem jlt_num_num (a b : ℝ) : jlt (num a) (num b) = decide (a < b) := rfl

@[simp] theorem jle_nan_left (x : JsNum) : jle nan x = false := by
  cases x <;> rfl

@[simp] theorem jle_nan_right (x : JsNum) : jle x nan = false := by
  cases x <;> rfl

@[simp] theorem jle_num_num (a b : ℝ) : jle (num a) (num b) = decide (a ≤ b) := rfl

end JsNum

open JsNum

/-- Round a finite value the way `Math.round(r * 100) / 100` does
(ties toward positive infinity). -/
noncomputable def round2 (r : ℝ) : ℝ := (⌊r * 100 + 1 / 2⌋ : ℤ) / 100

/-- Apply `Math.round(x * 100) / 100` to a JavaScript number.
`Math.round` maps NaN to NaN and each infinity to itself, and dividing by
100 keeps those fixed. -/
noncomputable def jround2 : JsNum → JsNum
  | JsNum.nan => JsNum.nan
  | JsNum.inf s => JsNum.inf s
  | JsNum.num a => JsNum.num (round2 a)

@[simp] theorem jround2_nan : jround2 JsNum.nan = JsNum.nan := rfl

@[simp] theorem jround2_num (a : ℝ) : jround2 (JsNum.num a) = JsNum.num (round2 a) := rfl

/-- Accumulator loop of `cosineSimilarity` (src/src/utils/embeddings.ts,
lines 98–106): running over both vectors in step, it accumulates
`dotProduct += a[i]*b[i]`, `normA += a[i]*a[i]`, `normB += b[i]*b[i]`,
starting from `0` each.  The caller has already checked that the lengths
agree. -/
noncomputable def cosAccum : List JsNum → List JsNum → JsNum → JsNum → JsNum →
    JsNum × JsNum × JsNum
  | a :: as, b :: bs, d, na, nb =>
      cosAccum as bs (jadd d (jmul a b)) (jadd na (jmul a a)) (jadd nb (jmul b b))
  | _, _, d, na, nb => (d, na, nb)

/-- Shallow embedding of `cosineSimilarity` (src/src/utils/embeddings.ts,
lines 93–109): throws `'Vectors must have the same length'` when the lengths
differ, otherwise returns `dotProduct / (Math.sqrt(normA) * Math.sqrt(normB))`
with no special-casing of zero vectors. -/
noncomputable def cosineSimilarity (a b : List JsNum) : Except String JsNum :=
  if a.length ≠ b.length then Except.error "Vectors must have the same length"
  else
    let acc := cosAccum a b (JsNum.num 0) (JsNum.num 0) (JsNum.num 0)
    Except.ok (jdiv acc.1 (jmul (jsqrt acc.2.1) (jsqrt acc.2.2)))

/-- Dot product of two real sequences, in the summation order of the source
loop. -/
def dotR : List ℝ → List ℝ → ℝ
  | x :: xs, y :: ys => x * y + dotR xs ys
  | _, _ => 0

/-- Sum of squares of a real sequence (the `normA`/`normB` accumulator before
the square root). -/
def sumSq : List ℝ → ℝ
  | x :: xs => x * x + sumSq xs
  | [] => 0

theorem sumSq_nonneg (xs : List ℝ) : 0 ≤ sumSq xs := by
  induction xs with
  | nil => simp [sumSq]
  | cons x xs ih => simpa [sumSq] using add_nonneg (mul_self_nonneg x) ih

theorem sumSq_eq_zero_iff (xs : List ℝ) : sumSq xs = 0 ↔ ∀ x ∈ xs, x = 0 := by
  induction xs with
  | nil => simp [sumSq]
  | cons x xs ih =>
      constructor
      · intro h
        have hx : x * x = 0 ∧ sumSq xs = 0 :=
          (add_eq_zero_iff_of_nonneg (mul_self_nonneg x) (sumSq_nonneg xs)).mp h
        have hx0 : x = 0 := by
          have := hx.1
          nlinarith [sq_nonneg x]
        intro y hy
        rcases List.mem_cons.mp hy with hy | hy
        · exact hy ▸ hx0
        · exact (ih.mp hx.2) y hy
      · intro h
        have hx0 : x = 0 := h x (List.mem_cons_self x xs)
        have : sumSq xs = 0 := ih.mpr (fun y hy => h y (List.mem_cons_of_mem x hy))
        simp [sumSq, hx0, this]

theorem dotR_eq_zero_left {xs : List ℝ} (h : ∀ x ∈ xs, x = 0) (ys : List ℝ) :
    dotR xs ys = 0 := by
  induction xs generalizing ys with
  | nil => cases ys <;> simp [dotR]
  | cons x xs ih =>
      cases ys with
      | nil => simp [dotR]
      | cons y ys =>
          have hx : x = 0 := h x (List.mem_cons_self x xs)
          have hrest : ∀ z ∈ xs, z = 0 := fun z hz => h z (List.mem_cons_of_mem x hz)
          simp [dotR, hx, ih hrest]

theorem dotR_eq_zero_right (xs : List ℝ) {ys : List ℝ} (h : ∀ y ∈ ys, y = 0) :
    dotR xs ys = 0 := by
  induction xs generalizing ys with
  | nil => cases ys <;> simp [dotR]
  | cons x xs ih =>
      cases ys with
      | nil => simp [dotR]
      | cons y ys =>
          have hy : y = 0 := h y (List.mem_cons_self y ys)
          have hrest : ∀ z ∈ ys, z = 0 := fun z hz => h z (List.mem_cons_of_mem y hz)
          simp [dotR, hy, ih hrest]

theorem cosAccum_map_num (xs ys : List ℝ) (h : xs.length = ys.length)
    (d na nb : ℝ) :
    cosAccum (xs.map JsNum.num) (ys.map JsNum.num)
        (JsNum.num d) (JsNum.num na) (JsNum.num nb) =
      (JsNum.num (d + dotR xs ys), JsNum.num (na + sumSq xs),
        JsNum.num (nb + sumSq ys)) := by
  induction xs generalizing ys d na nb with
  | nil =>
      cases ys with
      | nil => simp [cosAccum, dotR, sumSq]
      | cons y ys => simp at h
  | cons x xs ih =>
      cases ys with
      | nil => simp at h
      | cons y ys =>
          have hl : xs.length = ys.length := by simpa using h
          simp only [List.map_cons, cosAccum, jadd_num_num, jmul_num_num]
          rw [ih ys hl]
          simp [dotR, sumSq]
          constructor
          · ring
          constructor
          · ring
          · ring

/-- Valuewise description of `cosineSimilarity` on two lists of genuine
(non-NaN, finite) numbers of equal length. -/
theorem cosineSimilarity_real (xs ys : List ℝ) (h : xs.length = ys.length) :
    cosineSimilarity (xs.map JsNum.num) (ys.map JsNum.num) =
      Except.ok (jdiv (JsNum.num (dotR xs ys))
        (jmul (jsqrt (JsNum.num (sumSq xs))) (jsqrt (JsNum.num (sumSq ys))))) := by
  have hlen : (xs.map JsNum.num).length = (ys.map JsNum.num).length := by
    simpa using h
  simp only [cosineSimilarity, hlen, ne_eq, not_true_eq_false, if_false]
  rw [show ((JsNum.num 0 : JsNum)) = JsNum.num 0 from rfl]
  rw [cosAccum_map_num xs ys h 0 0 0]
  simp

/-- Model of a thrown JavaScript error as seen by `isRetryableError`
(src/src/utils/embeddings.ts, lines 42–52): whether it is an
`OpenAI.APIError`, its HTTP status (meaningful only for API errors), and its
message. -/
structure JsError where
  isAPIError : Bool
  status : ℤ
  message : String
  deriving DecidableEq

/-- JavaScript `String.prototype.includes`. -/
def strIncludes (s sub : String) : Bool := decide (List.IsInfix sub.toList s.toList)

/-- Shallow embedding of `isRetryableError` (src/src/utils/embeddings.ts,
lines 42–52): retry on API errors with status 429 or 5xx, and on errors whose
message contains `'ECONNRESET'`; everything else is not retryable.  (Every
modelled error is an `Error` with a message, so the `instanceof Error` guard
is always true here.) -/
def isRetryableError (e : JsError) : Bool :=
  if e.isAPIError then
    e.status == 429 || (decide (500 ≤ e.status) && decide (e.status < 600))
  else
    strIncludes e.message "ECONNRESET"

/-- Wrapping of a non-retryable error in `new AbortError(error.message)`:
`p-retry` rejects with the abort error's `originalError`, which for a string
argument is a fresh plain `Error` carrying the same message (so the original
status/API-error tag is not preserved). -/
def abortWrap (e : JsError) : JsError :=
  { isAPIError := false, status := 0, message := e.message }

/-- Wait before the `n`-th retry under the `p-retry` options
`{retries: 3, minTimeout: 1000, maxTimeout: 30000, factor: 2}`:
`min(minTimeout * factor^(n-1), maxTimeout)` milliseconds. -/
def backoffWait (n : ℕ) : ℕ := min (1000 * 2 ^ (n - 1)) 30000

/-- Result of a `createEmbedding` call: the value or error it settles with,
how many times the provider was actually invoked, and the list of backoff
waits (in ms) that were slept between attempts. -/
structure RetryOutcome where
  result : Except JsError (List JsNum)
  calls : ℕ
  waits : List ℕ

/-- One step of the `p-retry` loop: run attempt number `n` with `k` retries
remaining.  A success returns; a non-retryable failure is wrapped in
`AbortError` and settles immediately; a retryable failure retries after the
backoff wait while retries remain, and otherwise settles with the last
error. -/
def pRetryLoop (attempts : ℕ → Except JsError (List JsNum)) :
    ℕ → ℕ → RetryOutcome
  | n, 0 =>
    match attempts n with
    | Except.ok v => ⟨Except.ok v, 1, []⟩
    | Except.error e =>
        if ¬ isRetryableError e then ⟨Except.error (abortWrap e), 1, []⟩
        else ⟨Except.error e, 1, []⟩
  | n, k + 1 =>
    match attempts n with
    | Except.ok v => ⟨Except.ok v, 1, []⟩
    | Except.error e =>
        if ¬ isRetryableError e then ⟨Except.error (abortWrap e), 1, []⟩
        else
          let rest := pRetryLoop attempts (n + 1) k
          ⟨rest.result, rest.calls + 1, backoffWait n :: rest.waits⟩

/-- Shallow embedding of `createEmbedding` (src/src/utils/embeddings.ts,
lines 54–87): the provider call is modelled by `attempts`, giving the outcome
of each successive attempt (attempt numbers start at 1); `p-retry` is run
with `retries: 3`.  The outer catch only logs and re-throws, so the loop's
result is the function's result. -/
def createEmbedding (attempts : ℕ → Except JsError (List JsNum)) : RetryOutcome :=
  pRetryLoop attempts 1 3

/-- Stored row of the `embeddings` PocketBase collection, as the search code
reads it back: the `vector` field is arbitrary JSON, modelled as `none` when
it is null or not an array.  (PocketBase record ids are unique, so deleting
the record returned by `getFirstListItem` is modelled below by erasing the
first row matching the same filter.) -/
structure EmbRow where
  source_type : String
  source_id : String
  content_hash : String
  vector : Option (List JsNum)
  model : String

/-- Update policy of `saveEmbedding` (`onExisting`). -/
inductive Policy where
  | skip : Policy
  | replace : Policy
  deriving DecidableEq

/-- Filter `source_id="..." && content_hash="..."` used by the skip policy. -/
def matchesSkip (sourceId contentHash : String) (r : EmbRow) : Bool :=
  r.source_id == sourceId && r.content_hash == contentHash

/-- Filter `source_id="..." && source_type="..."` used by the replace
policy. -/
def matchesReplace (sourceId sourceType : String) (r : EmbRow) : Bool :=
  r.source_id == sourceId && r.source_type == sourceType

/-- Result of a `saveEmbedding` call: the rows of the `embeddings` collection
afterwards and how many times the embedding provider was invoked.  The
function itself never throws: its try/catch swallows every provider or
database failure (src/src/utils/embeddings.ts, lines 175–178). -/
structure SaveResult where
  rows : List EmbRow
  providerCalls : ℕ

/-- Shallow embedding of `saveEmbedding` (src/src/utils/embeddings.ts, lines
126–179).  Under `skip`, an existing row with the same `source_id` and
`content_hash` makes the call return immediately; under `replace`, the first
row with the same `source_id` and `source_type` is deleted.  Then the
provider is called once and, on success, the fresh row is created; a provider
failure is caught and swallowed, leaving the rows as they were at that point
(in particular a `replace` deletion is not rolled back). -/
def saveEmbedding (provider : String → Except JsError (List JsNum))
    (hash : String → String) (modelName : String) (rows : List EmbRow)
    (sourceType sourceId content : String) (onExisting : Policy) : SaveResult :=
  let contentHash := hash content
  match onExisting with
  | Policy.skip =>
      match rows.find? (matchesSkip sourceId contentHash) with
      | some _ => ⟨rows, 0⟩
      | none =>
          match provider content with
          | Except.ok v =>
              ⟨rows ++ [⟨sourceType, sourceId, contentHash, some v, modelName⟩], 1⟩
          | Except.error _ => ⟨rows, 1⟩
  | Policy.replace =>
      let rows' :=
        match rows.find? (matchesReplace sourceId sourceType) with
        | some _ => rows.eraseP (matchesReplace sourceId sourceType)
        | none => rows
      match provider content with
      | Except.ok v =>
          ⟨rows' ++ [⟨sourceType, sourceId, contentHash, some v, modelName⟩], 1⟩
      | Except.error _ => ⟨rows', 1⟩

/-- Shallow embedding of `saveWorkflowEmbedding` (src/src/tools/workflow.ts,
lines 54–81): compute the hash and the vector first, then delete any
existing `source_id`/`source_type="workflow"` row, then create the fresh
row; all failures are caught and swallowed.  A provider failure therefore
happens before the deletion, leaving the rows untouched. -/
def saveWorkflowEmbedding (provider : String → Except JsError (List JsNum))
    (hash : String → String) (modelName : String) (rows : List EmbRow)
    (workflowId content : String) : SaveResult :=
  let contentHash := hash content
  match provider content with
  | Except.error _ => ⟨rows, 1⟩
  | Except.ok v =>
      let rows' :=
        match rows.find? (matchesReplace workflowId "workflow") with
        | some _ => rows.eraseP (matchesReplace workflowId "workflow")
        | none => rows
      ⟨rows' ++ [⟨"workflow", workflowId, contentHash, some v, modelName⟩], 1⟩

/-- Plain `new Error(msg)` as a `JsError`. -/
def mkError (s : String) : JsError := { isAPIError := false, status := 0, message := s }

/-- Resolution of an optional schema-validated numeric field with JavaScript
`input.x || d`.  The zod schemas restrict these fields to `[0, 1]` (or to
`[1, 365]`) and reject NaN, so the only falsy value a supplied field can take
is `0`, which `||` silently replaces by the default. -/
noncomputable def orDefault (o : Option ℝ) (d : ℝ) : ℝ :=
  match o with
  | some t => if t = 0 then d else t
  | none => d

/-- Resolution of the optional `limit` field with `input.limit || d` (the
schema forces `limit ≥ 1`, but `||` would also replace an explicit 0). -/
def orDefaultNat (o : Option ℕ) (d : ℕ) : ℕ :=
  match o with
  | some n => if n = 0 then d else n
  | none => d

/-- Resolution of an optional field with nullish coalescing `input.x ?? d`:
only a missing value is replaced, an explicit `0` is honored. -/
def nullishDefault (o : Option ℝ) (d : ℝ) : ℝ := o.getD d

/-- Default source types of `semanticSearch`
(src/src/tools/search.ts, `defineTool` version): all six. -/
def defaultSourceTypes : List String :=
  ["observation", "decision", "bug", "pattern", "snippet", "workflow"]

/-- Derived similarity weight
`Math.max(0, 1 - recencyWeight - importanceWeight)`
(src/src/tools/search.ts, line 344). -/
def similarityWeight (recencyWeight importanceWeight : ℝ) : ℝ :=
  max 0 (1 - recencyWeight - importanceWeight)

/-- Recency score `Math.exp(-daysOld / decayDays)`
(src/src/tools/search.ts, line 368). -/
noncomputable def recencyScore (daysOld decayDays : ℝ) : ℝ :=
  Real.exp (-daysOld / decayDays)

/-- The `COLLECTION_MAP` table of src/src/tools/search.ts. -/
def COLLECTION_MAP (t : String) : Option String :=
  if t == "observation" then some "observations"
  else if t == "decision" then some "decisions"
  else if t == "bug" then some "bugs_and_fixes"
  else if t == "pattern" then some "patterns"
  else if t == "snippet" then some "code_snippets"
  else if t == "workflow" then some "workflows"
  else none

/-- Source record as fetched from its own collection, restricted to the
fields the ranking code reads.  `created` is the record's creation time as a
millisecond timestamp (`new Date(record.created).getTime()`); `importance`,
`strength` and `execution_count` are `none` when the field is undefined on
the record; `outcome` is the truthiness of the record's `outcome` field. -/
structure Rec where
  id : String
  title : String
  content : String
  created : ℝ
  importance : Option ℝ
  strength : Option ℝ
  outcome : Bool
  execution_count : Option ℝ

/-- Importance score of a candidate (src/src/tools/search.ts, lines
370–374): an explicit 1–5 `importance` or `strength` field rescaled to
`(value-1)/4`; otherwise 0.8/0.5 for decisions by outcome, or
`min(1, 0.3 + 0.1 * execution_count)` for workflows; otherwise 0.5. -/
noncomputable def importanceOf (sourceType : String) (rec : Rec) : ℝ :=
  match rec.importance with
  | some i => (i - 1) / 4
  | none =>
    match rec.strength with
    | some s => (s - 1) / 4
    | none =>
      if sourceType == "decision" then (if rec.outcome then 0.8 else 0.5)
      else if sourceType == "workflow" then
        min 1 (0.3 + (match rec.execution_count with
          | some c => c
          | none => 0) * 0.1)
      else 0.5

/-- Final weighted score
`similarity * similarityWeight + recencyScore * recencyWeight + importanceScore * importanceWeight`
(src/src/tools/search.ts, line 376): the similarity may be any JavaScript
number, the other factors are ordinary finite values. -/
noncomputable def finalScoreOf (sim : JsNum) (recency importance rw iw ws : ℝ) :
    JsNum :=
  jadd (jadd (jmul sim (JsNum.num ws)) (jmul (JsNum.num recency) (JsNum.num rw)))
    (jmul (JsNum.num importance) (JsNum.num iw))

/-- Per-candidate score tuple pushed by the ranking loop (the `scores` array
of `semanticSearch`): raw similarity, and recency/importance/final scores
rounded to two decimals as the code stores them. -/
structure Score where
  sourceType : String
  sourceId : String
  similarity : JsNum
  recencyScore : ℝ
  importanceScore : ℝ
  finalScore : JsNum
  created : ℝ

/-- Body of the candidate loop of `semanticSearch` (src/src/tools/search.ts,
lines 352–379), as a function from one `embeddings` row to the score it
contributes, `none` meaning `continue` (type not requested, null/non-array or
empty vector, a caught per-candidate error, a below-threshold similarity, an
unmapped type, or a deleted owner record).  Weights are already resolved. -/
noncomputable def processEmbedding (q : List JsNum) (sourceTypes : List String)
    (threshold : ℝ) (fetch : String → String → Option Rec)
    (now decayDays rw iw ws : ℝ) (emb : EmbRow) : Option Score :=
  if ¬ sourceTypes.contains emb.source_type then none
  else
    match emb.vector with
    | none => none
    | some v =>
      if v.length = 0 then none
      else
        match cosineSimilarity q v with
        | Except.error _ => none
        | Except.ok sim =>
          if jlt sim (JsNum.num threshold) then none
          else
            match COLLECTION_MAP emb.source_type with
            | none => none
            | some coll =>
              match fetch coll emb.source_id with
              | none => none
              | some rec =>
                let daysOld := (now - rec.created) / 86400000
                let recency := recencyScore daysOld decayDays
                let importance := importanceOf emb.source_type rec
                let finalScore := finalScoreOf sim recency importance rw iw ws
                some { sourceType := emb.source_type, sourceId := emb.source_id,
                       similarity := sim, recencyScore := round2 recency,
                       importanceScore := round2 importance,
                       finalScore := jround2 finalScore, created := rec.created }

/-- Stable insertion of `x` into a list sorted descending by `key`: `x` goes
after every element with a strictly larger key and, for equal keys, after the
elements already present (matching the stable sort of
`arr.sort((a, b) => key(b) - key(a))`). -/
noncomputable def insertDescBy {α : Type} (key : α → JsNum) (x : α) :
    List α → List α
  | [] => [x]
  | y :: ys =>
      if jlt (key x) (key y) then y :: insertDescBy key x ys else x :: y :: ys

/-- Stable sort descending by `key`, the model of JavaScript
`arr.sort((a, b) => key(b) - key(a))`.  For numeric (non-NaN) keys the
comparator is consistent and JavaScript guarantees exactly the stable
descending order this insertion sort produces; with NaN keys the engine
order is unspecified and this model fixes one. -/
noncomputable def sortByKeyDesc {α : Type} (key : α → JsNum) : List α → List α
  | [] => []
  | x :: xs => insertDescBy key x (sortByKeyDesc key xs)

/-- Input of the `semantic_search` tool after zod validation
(`SemanticSearchSchema`, `defineTool` version): every field optional,
`threshold` and the two weights in [0,1], `limit` in [1,20], `decay_days`
in [1,365]. -/
structure SemInput where
  collections : Option (List String)
  threshold : Option ℝ
  limit : Option ℕ
  recency_weight : Option ℝ
  importance_weight : Option ℝ
  decay_days : Option ℝ

/-- Predicate for a supplied `threshold` accepted by the schema
(`z.number().min(0).max(1)`). -/
def thresholdAccepted (t : ℝ) : Prop := 0 ≤ t ∧ t ≤ 1

/-- Entry of the `results` array returned by `semanticSearch`, annotated
with its component scores. -/
structure SemEntry where
  type : String
  id : String
  title : String
  content : String
  similarity : JsNum
  recency_score : ℝ
  importance_score : ℝ
  final_score : JsNum
  created : ℝ

/-- The `weights` object echoed in the response of `semanticSearch`. -/
structure SemWeights where
  similarity : ℝ
  recency : ℝ
  importance : ℝ
  decay_days : ℝ

/-- Response of `semanticSearch`. -/
structure SemOutput where
  weights : SemWeights
  total : ℕ
  results : List SemEntry

/-- Building of one response entry from a surviving score
(src/src/tools/search.ts, lines 384–397): re-fetch the owner record (a
missing record is caught and the entry skipped) and annotate the entry with
its component scores, truncating the content preview to 300 characters. -/
noncomputable def buildEntry (fetch : String → String → Option Rec) (s : Score) :
    Option SemEntry :=
  match COLLECTION_MAP s.sourceType with
  | none => none
  | some coll =>
    match fetch coll s.sourceId with
    | none => none
    | some rec =>
        some { type := s.sourceType, id := rec.id, title := rec.title,
               content := rec.content.take 300, similarity := jround2 s.similarity,
               recency_score := s.recencyScore, importance_score := s.importanceScore,
               final_score := s.finalScore, created := s.created }

/-- Scoring pass of `semanticSearch` over all stored embeddings, with the
input fields already resolved to concrete parameters. -/
noncomputable def semanticScores (q : List JsNum) (rows : List EmbRow)
    (fetch : String → String → Option Rec) (now : ℝ) (input : SemInput) :
    List Score :=
  let threshold := orDefault input.threshold 0.7
  let sourceTypes := input.collections.getD defaultSourceTypes
  let rw := nullishDefault input.recency_weight 0.3
  let iw := nullishDefault input.importance_weight 0.2
  let dd := nullishDefault input.decay_days 30
  let ws := similarityWeight rw iw
  rows.filterMap (processEmbedding q sourceTypes threshold fetch now dd rw iw ws)

/-- Shallow embedding of the `defineTool` version of `semanticSearch`
(src/src/tools/search.ts, lines 331–401).  `qres` is the outcome of
`createEmbedding(input.query)`: its failure escapes the handler (the outer
catch only logs and re-throws).  `rows` is the full `embeddings` collection
(`getFullList`, no server-side filter), `fetch` resolves a collection name
and record id to the owner record, and `now` is `Date.now()`. -/
noncomputable def semanticSearch (qres : Except JsError (List JsNum))
    (rows : List EmbRow) (fetch : String → String → Option Rec) (now : ℝ)
    (input : SemInput) : Except JsError SemOutput :=
  let limit := orDefaultNat input.limit 5
  let rw := nullishDefault input.recency_weight 0.3
  let iw := nullishDefault input.importance_weight 0.2
  let dd := nullishDefault input.decay_days 30
  let ws := similarityWeight rw iw
  match qres with
  | Except.error e => Except.error e
  | Except.ok q =>
      let scores := semanticScores q rows fetch now input
      let sorted := sortByKeyDesc (fun s => s.finalScore) scores
      let results := (sorted.take limit).filterMap (buildEntry fetch)
      Except.ok { weights := { similarity := round2 ws, recency := rw,
                               importance := iw, decay_days := dd },
                  total := results.length, results := results }

/-- Workflow record as `findWorkflow` reads it (src/src/tools/workflow.ts):
`stepsCount` is the length of the `steps` array (0 when missing),
`execution_count` is already defaulted to 0 when absent, and `projectName`
is `expand.project.name` when the workflow belongs to a project. -/
structure WfRec where
  id : String
  name : String
  trigger : String
  description : String
  stepsCount : ℕ
  execution_count : ℝ
  projectName : Option String

/-- Score pushed by the `findWorkflow` candidate loop. -/
structure WfScore where
  id : String
  similarity : JsNum

/-- Entry of the `workflows` array returned by `findWorkflow`. -/
structure WfEntry where
  id : String
  name : String
  trigger : String
  description : String
  steps_count : ℕ
  execution_count : ℝ
  similarity : JsNum

/-- Response of `findWorkflow`. -/
structure WfOutput where
  total : ℕ
  workflows : List WfEntry

/-- Candidate loop of `findWorkflow` (src/src/tools/workflow.ts, lines
179–187): rows whose vector is null or not an array are skipped, but there
is no per-candidate try/catch, so an error thrown by `cosineSimilarity`
(e.g. a length mismatch against an empty vector array) aborts the whole
loop.  Candidates with `similarity >= 0.5` are kept (false for NaN). -/
noncomputable def wfScoreLoop (q : List JsNum) : List EmbRow →
    Except String (List WfScore)
  | [] => Except.ok []
  | emb :: rest =>
    match emb.vector with
    | none => wfScoreLoop q rest
    | some v =>
      match cosineSimilarity q v with
      | Except.error e => Except.error e
      | Except.ok sim =>
        match wfScoreLoop q rest with
        | Except.error e => Except.error e
        | Except.ok tail =>
            Except.ok (if jle (JsNum.num 0.5) sim then ⟨emb.source_id, sim⟩ :: tail
              else tail)

/-- Building of one `findWorkflow` result entry: fetch the workflow (a
deleted workflow is caught and skipped), then apply the post-fetch project
filter, then annotate with the rounded similarity. -/
noncomputable def buildWfEntry (fetchWf : String → Option WfRec)
    (project : Option String) (s : WfScore) : Option WfEntry :=
  match fetchWf s.id with
  | none => none
  | some wf =>
    match project with
    | some p =>
        if wf.projectName == some p then
          some { id := wf.id, name := wf.name, trigger := wf.trigger,
                 description := wf.description, steps_count := wf.stepsCount,
                 execution_count := wf.execution_count,
                 similarity := jround2 s.similarity }
        else none
    | none =>
        some { id := wf.id, name := wf.name, trigger := wf.trigger,
               description := wf.description, steps_count := wf.stepsCount,
               execution_count := wf.execution_count,
               similarity := jround2 s.similarity }

/-- Shallow embedding of `findWorkflow` (src/src/tools/workflow.ts, lines
164–236).  `qres` is the outcome of embedding the query (failure escapes),
`rows` is the `embeddings` collection, which the code asks PocketBase to
filter to `source_type="workflow"`.  An error thrown inside the candidate
loop reaches the outer catch, which logs and re-throws it. -/
noncomputable def findWorkflow (qres : Except JsError (List JsNum))
    (rows : List EmbRow) (fetchWf : String → Option WfRec)
    (project : Option String) (limitIn : Option ℕ) : Except JsError WfOutput :=
  let limit := orDefaultNat limitIn 5
  match qres with
  | Except.error e => Except.error e
  | Except.ok q =>
      match wfScoreLoop q (rows.filter (fun r => r.source_type == "workflow")) with
      | Except.error s => Except.error (mkError s)
      | Except.ok scores =>
          let sorted := sortByKeyDesc (fun s => s.similarity) scores
          let results := (sorted.take limit).filterMap (buildWfEntry fetchWf project)
          Except.ok { total := results.length, workflows := results }

/-!  Theorems for the claims.  -/

/-- C2, counterexample.  The claim asserts that every violation of the
"non-empty, equal-length" precondition fails with a length-mismatch error;
but two empty sequences have equal lengths, pass the length check, and
return `0 / (sqrt(0) * sqrt(0)) = NaN` instead of an error. -/
theorem C2_counterexample :
    cosineSimilarity ([] : List JsNum) [] = Except.ok JsNum.nan := by
  simp [cosineSimilarity, cosAccum, jsqrt, jmul, jdiv, Real.sqrt_zero]

/-- C2, amended.  `cosineSimilarity` on two equal-length sequences of
genuine numbers returns the dot product divided by the product of the
Euclidean norms; when either norm is zero (in particular for two empty
sequences) the division is `0/0` and the result is NaN, not an error and
not 0; only sequences of unequal length fail, with the length-mismatch
error — an equal-length violation of non-emptiness is not detected. -/
theorem C2_amended :
    (∀ xs ys : List ℝ, xs.length = ys.length → sumSq xs ≠ 0 → sumSq ys ≠ 0 →
      cosineSimilarity (xs.map JsNum.num) (ys.map JsNum.num) =
        Except.ok (JsNum.num
          (dotR xs ys / (Real.sqrt (sumSq xs) * Real.sqrt (sumSq ys))))) ∧
    (∀ xs ys : List ℝ, xs.length = ys.length → sumSq xs = 0 ∨ sumSq ys = 0 →
      cosineSimilarity (xs.map JsNum.num) (ys.map JsNum.num) =
        Except.ok JsNum.nan) ∧
    (∀ a b : List JsNum, a.length ≠ b.length →
      cosineSimilarity a b = Except.error "Vectors must have the same length") := by
  refine ⟨?_, ?_, ?_⟩
  · intro xs ys hlen hx hy
    rw [cosineSimilarity_real xs ys hlen]
    rw [jsqrt_num_of_nonneg (sumSq_nonneg xs), jsqrt_num_of_nonneg (sumSq_nonneg ys)]
    rw [jmul_num_num]
    have hx' : 0 < Real.sqrt (sumSq xs) :=
      Real.sqrt_pos.mpr (lt_of_le_of_ne (sumSq_nonneg xs) (Ne.symm hx))
    have hy' : 0 < Real.sqrt (sumSq ys) :=
      Real.sqrt_pos.mpr (lt_of_le_of_ne (sumSq_nonneg ys) (Ne.symm hy))
    rw [jdiv_num_num_of_ne (by positivity)]
  · intro xs ys hlen hzero
    rw [cosineSimilarity_real xs ys hlen]
    have hdot : dotR xs ys = 0 := by
      rcases hzero with h | h
      · exact dotR_eq_zero_left ((sumSq_eq_zero_iff xs).mp h) ys
      · exact dotR_eq_zero_right xs ((sumSq_eq_zero_iff ys).mp h)
    have hprod : Real.sqrt (sumSq xs) * Real.sqrt (sumSq ys) = 0 := by
      rcases hzero with h | h
      · rw [h, Real.sqrt_zero, zero_mul]
      · rw [h, Real.sqrt_zero, mul_zero]
    rw [jsqrt_num_of_nonneg (sumSq_nonneg xs), jsqrt_num_of_nonneg (sumSq_nonneg ys)]
    rw [jmul_num_num, hprod, hdot]
    simp [jdiv]
  · intro a b h
    simp [cosineSimilarity, h]

/-- C2, witness: the amended theorem applied to the concrete inputs
`[1] · [2]`, the zero vector `[0]` against `[5]`, and a 2-vs-1 length
mismatch. -/
theorem C2_witness :
    cosineSimilarity ([(1 : ℝ)].map JsNum.num) ([(2 : ℝ)].map JsNum.num) =
      Except.ok (JsNum.num
        (dotR [1] [2] / (Real.sqrt (sumSq [1]) * Real.sqrt (sumSq [2])))) ∧
    cosineSimilarity ([(0 : ℝ)].map JsNum.num) ([(5 : ℝ)].map JsNum.num) =
      Except.ok JsNum.nan ∧
    cosineSimilarity [JsNum.num 1, JsNum.num 2] [JsNum.num 3] =
      Except.error "Vectors must have the same length" :=
  ⟨C2_amended.1 [1] [2] rfl (by norm_num [sumSq]) (by norm_num [sumSq]),
   C2_amended.2.1 [0] [5] rfl (Or.inl (by norm_num [sumSq])),
   C2_amended.2.2 [JsNum.num 1, JsNum.num 2] [JsNum.num 3] (by simp)⟩

/-- C5.  In `semanticSearch` the similarity weight is derived as
`Ws = max(0, 1 - recencyWeight - importanceWeight)`: the three weights sum
to exactly 1 whenever the supplied weights (each in [0,1]) sum to at most 1;
`Ws` clamps to exactly 0 (never negative) when they sum to more than 1; the
defaults resolved by nullish coalescing are `Wr = 0.3`, `Wi = 0.2`; and the
final score of a candidate with numeric similarity `s` is
`s * Ws + recency * Wr + importance * Wi`. -/
theorem C5_weight_normalization :
    (∀ rw iw : ℝ, 0 ≤ rw → rw ≤ 1 → 0 ≤ iw → iw ≤ 1 → rw + iw ≤ 1 →
      similarityWeight rw iw + rw + iw = 1) ∧
    (∀ rw iw : ℝ, 1 < rw + iw → similarityWeight rw iw = 0) ∧
    (∀ rw iw : ℝ, 0 ≤ similarityWeight rw iw) ∧
    nullishDefault none 0.3 = (0.3 : ℝ) ∧
    nullishDefault none 0.2 = (0.2 : ℝ) ∧
    (∀ s recency importance rw iw : ℝ,
      finalScoreOf (JsNum.num s) recency importance rw iw (similarityWeight rw iw) =
        JsNum.num (s * similarityWeight rw iw + recency * rw + importance * iw)) := by
  refine ⟨?_, ?_, ?_, rfl, rfl, ?_⟩
  · intro rw iw _ _ _ _ hsum
    have : similarityWeight rw iw = 1 - rw - iw :=
      max_eq_right (by linarith)
    rw [this]; ring
  · intro rw iw hsum
    exact max_eq_left (by linarith)
  · intro rw iw
    exact le_max_left 0 _
  · intro s recency importance rw iw
    simp [finalScoreOf]

/-- C5, witness: the theorem at the default weights `Wr = 0.3`, `Wi = 0.2`
(where `Ws = 0.5` and the weights sum to 1), at oversupplied weights
`0.8 + 0.9` (where `Ws` clamps to 0), and the final-score formula at
concrete values. -/
theorem C5_witness :
    similarityWeight 0.3 0.2 + 0.3 + 0.2 = 1 ∧
    similarityWeight 0.8 0.9 = 0 ∧
    (0 : ℝ) ≤ similarityWeight 0.8 0.9 ∧
    finalScoreOf (JsNum.num 1) 1 1 0.3 0.2 (similarityWeight 0.3 0.2) =
      JsNum.num (1 * similarityWeight 0.3 0.2 + 1 * 0.3 + 1 * 0.2) :=
  ⟨C5_weight_normalization.1 0.3 0.2 (by norm_num) (by norm_num) (by norm_num)
      (by norm_num) (by norm_num),
   C5_weight_normalization.2.1 0.8 0.9 (by norm_num),
   C5_weight_normalization.2.2.1 0.8 0.9,
   C5_weight_normalization.2.2.2.2.2 1 1 1 0.3 0.2⟩

/-- C6.  The recency score is `exp(-ageDays / decayDays)` with the
`decay_days` input defaulting to 30 under nullish coalescing; for a fixed
positive `decayDays` it is strictly decreasing in the age, and for every
nonnegative age it is in `(0, 1]`. -/
theorem C6_recency_decay :
    (∀ dd a1 a2 : ℝ, 0 < dd → a1 < a2 → recencyScore a2 dd < recencyScore a1 dd) ∧
    (∀ dd a : ℝ, 0 < dd → 0 ≤ a → 0 < recencyScore a dd ∧ recencyScore a dd ≤ 1) ∧
    nullishDefault none 30 = (30 : ℝ) := by
  refine ⟨?_, ?_, rfl⟩
  · intro dd a1 a2 hdd h12
    apply Real.exp_lt_exp.mpr
    simpa [div_eq_mul_inv] using
      mul_lt_mul_of_pos_right (neg_lt_neg h12) (inv_pos.mpr hdd)
  · intro dd a hdd ha
    refine ⟨Real.exp_pos _, Real.exp_le_one_iff.mpr ?_⟩
    have h1 : -a ≤ 0 := neg_nonpos.mpr ha
    exact div_nonpos_iff.mpr (Or.inr ⟨h1, hdd.le⟩)

/-- C6, witness: with `decayDays = 30`, an entity aged 2 days scores
strictly less than one aged 1 day, and the score of a 0-day-old entity is
in `(0, 1]`. -/
theorem C6_witness :
    recencyScore 2 30 < recencyScore 1 30 ∧
    0 < recencyScore 0 30 ∧ recencyScore 0 30 ≤ 1 :=
  ⟨C6_recency_decay.1 30 1 2 (by norm_num) (by norm_num),
   (C6_recency_decay.2.1 30 0 (by norm_num) (by norm_num)).1,
   (C6_recency_decay.2.1 30 0 (by norm_num) (by norm_num)).2⟩

/-- C10.  The `semantic_search` schema accepts an explicit threshold of 0,
but the handler resolves the threshold with a falsy-or, so a supplied 0 is
replaced by the default 0.7 exactly as if it were absent (and the whole
search behaves identically in the two cases), while any nonzero supplied
threshold is honored; the weights use nullish coalescing, so explicitly
supplied zero weights are honored. -/
theorem C10_threshold_falsy_or :
    thresholdAccepted 0 ∧
    orDefault (some 0) 0.7 = (0.7 : ℝ) ∧
    orDefault none 0.7 = (0.7 : ℝ) ∧
    (∀ t : ℝ, t ≠ 0 → orDefault (some t) 0.7 = t) ∧
    nullishDefault (some 0) 0.3 = (0 : ℝ) ∧
    nullishDefault (some 0) 0.2 = (0 : ℝ) ∧
    (∀ (qres : Except JsError (List JsNum)) (rows : List EmbRow)
      (fetch : String → String → Option Rec) (now : ℝ) (input : SemInput),
      semanticSearch qres rows fetch now { input with threshold := some 0 } =
        semanticSearch qres rows fetch now { input with threshold := none }) := by
  refine ⟨⟨le_refl 0, by norm_num⟩, by simp [orDefault], rfl, ?_, rfl, rfl, ?_⟩
  · intro t ht
    simp [orDefault, ht]
  · intro qres rows fetch now input
    have hth : orDefault (some (0 : ℝ)) 0.7 = orDefault none 0.7 := by
      simp [orDefault]
    cases qres with
    | error e => rfl
    | ok q =>
        simp only [semanticSearch, semanticScores, hth]

/-- C10, witness: the nonzero-threshold clause of the theorem applied at
`t = 0.5`, and the whole-search clause applied to a concrete search
state. -/
theorem C10_witness :
    orDefault (some 0.5) 0.7 = (0.5 : ℝ) ∧
    semanticSearch (Except.error (mkError "boom")) [] (fun _ _ => none) 0
        { collections := none, threshold := some 0, limit := none,
          recency_weight := none, importance_weight := none, decay_days := none } =
      semanticSearch (Except.error (mkError "boom")) [] (fun _ _ => none) 0
        { collections := none, threshold := none, limit := none,
          recency_weight := none, importance_weight := none, decay_days := none } :=
  ⟨C10_threshold_falsy_or.2.2.2.1 0.5 (by norm_num),
   C10_threshold_falsy_or.2.2.2.2.2.2 (Except.error (mkError "boom")) []
     (fun _ _ => none) 0
     { collections := none, threshold := none, limit := none,
       recency_weight := none, importance_weight := none, decay_days := none }⟩

theorem pRetryLoop_ok (attempts : ℕ → Except JsError (List JsNum))
    (n k : ℕ) (v : List JsNum) (h : attempts n = Except.ok v) :
    pRetryLoop attempts n k = ⟨Except.ok v, 1, []⟩ := by
  cases k <;> simp [pRetryLoop, h]

theorem pRetryLoop_abort (attempts : ℕ → Except JsError (List JsNum))
    (n k : ℕ) (e : JsError) (h : attempts n = Except.error e)
    (hr : isRetryableError e = false) :
    pRetryLoop attempts n k = ⟨Except.error (abortWrap e), 1, []⟩ := by
  cases k <;> simp [pRetryLoop, h, hr]

theorem pRetryLoop_last (attempts : ℕ → Except JsError (List JsNum))
    (n : ℕ) (e : JsError) (h : attempts n = Except.error e)
    (hr : isRetryableError e = true) :
    pRetryLoop attempts n 0 = ⟨Except.error e, 1, []⟩ := by
  simp [pRetryLoop, h, hr]

theorem pRetryLoop_retry (attempts : ℕ → Except JsError (List JsNum))
    (n k : ℕ) (e : JsError) (h : attempts n = Except.error e)
    (hr : isRetryableError e = true) :
    pRetryLoop attempts n (k + 1) =
      ⟨(pRetryLoop attempts (n + 1) k).result,
       (pRetryLoop attempts (n + 1) k).calls + 1,
       backoffWait n :: (pRetryLoop attempts (n + 1) k).waits⟩ := by
  simp [pRetryLoop, h, hr]

theorem pRetryLoop_calls_le (attempts : ℕ → Except JsError (List JsNum)) :
    ∀ k n, (pRetryLoop attempts n k).calls ≤ k + 1 := by
  intro k
  induction k with
  | zero =>
      intro n
      cases hn : attempts n with
      | ok v => simp [pRetryLoop_ok attempts n 0 v hn]
      | error e =>
          cases hr : isRetryableError e
          · simp [pRetryLoop_abort attempts n 0 e hn hr]
          · simp [pRetryLoop_last attempts n e hn hr]
  | succ k ih =>
      intro n
      cases hn : attempts n with
      | ok v => simp [pRetryLoop_ok attempts n (k + 1) v hn]
      | error e =>
          cases hr : isRetryableError e
          · simp [pRetryLoop_abort attempts n (k + 1) e hn hr]
          · rw [pRetryLoop_retry attempts n k e hn hr]
            have := ih (n + 1)
            simpa using Nat.add_le_add_right this 1

/-- C7.  `createEmbedding` makes at most 4 provider calls (3 retries); a
non-retryable first failure settles immediately after a single call with no
backoff wait, propagating the abort-wrapped error; four consecutive
retryable failures exhaust the retries, propagate the last error, and sleep
exactly the exponential backoff waits 1s, 2s, 4s; every backoff wait is
capped at 30s with `backoffWait 1 = 1000`, `backoffWait 2 = 2000`,
`backoffWait 3 = 4000` ms; and an API error is retryable exactly when its
status is 429 or 5xx (so 401 authentication and 400 malformed-request
errors are not retried). -/
theorem C7_retry_policy :
    (∀ attempts, (createEmbedding attempts).calls ≤ 4) ∧
    (∀ attempts e, attempts 1 = Except.error e → isRetryableError e = false →
      createEmbedding attempts =
        ⟨Except.error (abortWrap e), 1, []⟩) ∧
    (∀ attempts e1 e2 e3 e4,
      attempts 1 = Except.error e1 → isRetryableError e1 = true →
      attempts 2 = Except.error e2 → isRetryableError e2 = true →
      attempts 3 = Except.error e3 → isRetryableError e3 = true →
      attempts 4 = Except.error e4 → isRetryableError e4 = true →
      createEmbedding attempts =
        ⟨Except.error e4, 4, [1000, 2000, 4000]⟩) ∧
    (∀ n, backoffWait n ≤ 30000) ∧
    backoffWait 1 = 1000 ∧ backoffWait 2 = 2000 ∧ backoffWait 3 = 4000 ∧
    (∀ e : JsError, e.isAPIError = true →
      (isRetryableError e = true ↔
        (e.status = 429 ∨ (500 ≤ e.status ∧ e.status < 600)))) := by
  refine ⟨?_, ?_, ?_, ?_, rfl, rfl, rfl, ?_⟩
  · intro attempts
    exact pRetryLoop_calls_le attempts 3 1
  · intro attempts e h1 hr
    exact pRetryLoop_abort attempts 1 3 e h1 hr
  · intro attempts e1 e2 e3 e4 h1 hr1 h2 hr2 h3 hr3 h4 hr4
    have s4 : pRetryLoop attempts 4 0 = ⟨Except.error e4, 1, []⟩ :=
      pRetryLoop_last attempts 4 e4 h4 hr4
    have s3 : pRetryLoop attempts 3 1 = ⟨Except.error e4, 2, [4000]⟩ := by
      rw [pRetryLoop_retry attempts 3 0 e3 h3 hr3, s4]
      norm_num [backoffWait]
    have s2 : pRetryLoop attempts 2 2 = ⟨Except.error e4, 3, [2000, 4000]⟩ := by
      rw [pRetryLoop_retry attempts 2 1 e2 h2 hr2, s3]
      norm_num [backoffWait]
    have s1 : pRetryLoop attempts 1 3 = ⟨Except.error e4, 4, [1000, 2000, 4000]⟩ := by
      rw [pRetryLoop_retry attempts 1 2 e1 h1 hr1, s2]
      norm_num [backoffWait]
    exact s1
  · intro n
    exact min_le_right _ _
  · intro e he
    simp [isRetryableError, he]

/-- C7, witness: a provider that always answers 429 is called 4 times with
waits 1s, 2s, 4s and the last error propagates; a provider that answers 401
settles after one call with the abort-wrapped error; concrete cap and
retryability checks. -/
theorem C7_witness :
    createEmbedding (fun _ => Except.error ⟨true, 429, "rate limited"⟩) =
      ⟨Except.error ⟨true, 429, "rate limited"⟩, 4, [1000, 2000, 4000]⟩ ∧
    createEmbedding (fun _ => Except.error ⟨true, 401, "bad key"⟩) =
      ⟨Except.error (abortWrap ⟨true, 401, "bad key"⟩), 1, []⟩ ∧
    backoffWait 12 ≤ 30000 ∧
    (isRetryableError ⟨true, 503, "server"⟩ = true ↔
      ((503 : ℤ) = 429 ∨ ((500 : ℤ) ≤ 503 ∧ (503 : ℤ) < 600))) :=
  ⟨C7_retry_policy.2.2.1 _ _ _ _ _ rfl (by decide) rfl (by decide) rfl (by decide)
      rfl (by decide),
   C7_retry_policy.2.1 _ _ rfl (by decide),
   C7_retry_policy.2.2.2.1 12,
   C7_retry_policy.2.2.2.2.2.2.2 ⟨true, 503, "server"⟩ rfl⟩

theorem find?_append_of_none {α : Type} {p : α → Bool} {l1 : List α}
    (h : l1.find? p = none) (l2 : List α) :
    (l1 ++ l2).find? p = l2.find? p := by
  induction l1 with
  | nil => simp
  | cons x l ih =>
      cases hp : p x with
      | true => simp [List.find?_cons, hp] at h
      | false =>
          have h' : l.find? p = none := by simpa [List.find?_cons, hp] using h
          simpa [List.find?_cons, hp] using ih h'

theorem filter_eraseP_eq_nil {α : Type} {p : α → Bool} :
    ∀ {l : List α}, (l.filter p).length ≤ 1 → (l.eraseP p).filter p = [] := by
  intro l
  induction l with
  | nil => intro _; rfl
  | cons x l ih =>
      intro h
      cases hp : p x with
      | true =>
          rw [List.eraseP_cons_of_pos hp]
          rw [List.filter_cons_of_pos hp] at h
          simp only [List.length_cons] at h
          have : (l.filter p).length = 0 := by omega
          exact List.length_eq_zero.mp this
      | false =>
          rw [List.eraseP_cons_of_neg (by simp [hp])]
          rw [List.filter_cons_of_neg (by simp [hp])] at h ⊢
          exact ih h

theorem filter_eq_nil_of_find?_none {α : Type} {p : α → Bool} {l : List α}
    (h : l.find? p = none) : l.filter p = [] := by
  rw [List.filter_eq_nil_iff]
  intro a ha
  exact (List.find?_eq_none.mp h) a ha

/-- C3.  Under the `skip` policy, `saveEmbedding` is idempotent in content:
starting from a store with no embedding matching `(sourceId, hash(content))`
and a succeeding provider, the first call stores exactly one matching
embedding with one provider call, and the second call with the same
`(sourceId, content)` finds it and returns immediately — same rows, zero
provider calls. -/
theorem C3_skip_dedup (provider : String → Except JsError (List JsNum))
    (hash : String → String) (modelName : String) (rows : List EmbRow)
    (sourceType sourceId content : String) (v : List JsNum)
    (hp : provider content = Except.ok v)
    (h0 : rows.find? (matchesSkip sourceId (hash content)) = none) :
    ((saveEmbedding provider hash modelName rows sourceType sourceId content
        Policy.skip).rows.filter (matchesSkip sourceId (hash content))).length = 1 ∧
    (saveEmbedding provider hash modelName rows sourceType sourceId content
        Policy.skip).providerCalls = 1 ∧
    saveEmbedding provider hash modelName
        (saveEmbedding provider hash modelName rows sourceType sourceId content
          Policy.skip).rows sourceType sourceId content Policy.skip =
      ⟨(saveEmbedding provider hash modelName rows sourceType sourceId content
          Policy.skip).rows, 0⟩ := by
  have e1 : saveEmbedding provider hash modelName rows sourceType sourceId content
      Policy.skip =
      ⟨rows ++ [⟨sourceType, sourceId, hash content, some v, modelName⟩], 1⟩ := by
    simp [saveEmbedding, h0, hp]
  have hmatch : matchesSkip sourceId (hash content)
      (⟨sourceType, sourceId, hash content, some v, modelName⟩ : EmbRow) = true := by
    simp [matchesSkip]
  have hfilter : rows.filter (matchesSkip sourceId (hash content)) = [] :=
    filter_eq_nil_of_find?_none h0
  refine ⟨?_, ?_, ?_⟩
  · rw [e1]
    simp [List.filter_append, hfilter, hmatch]
  · rw [e1]
  · rw [e1]
    have hfind : ((rows ++ [(⟨sourceType, sourceId, hash content, some v,
        modelName⟩ : EmbRow)]).find? (matchesSkip sourceId (hash content))) =
        some ⟨sourceType, sourceId, hash content, some v, modelName⟩ := by
      rw [find?_append_of_none h0]
      exact List.find?_cons_of_pos _ hmatch
    simp only [saveEmbedding]
    rw [hfind]

/-- C3, witness: the theorem at a concrete empty store, identity hash and a
constant provider. -/
theorem C3_witness :
    ((saveEmbedding (fun _ => Except.ok [JsNum.num 1]) (fun s => s) "m" []
        "observation" "o1" "text" Policy.skip).rows.filter
        (matchesSkip "o1" "text")).length = 1 ∧
    (saveEmbedding (fun _ => Except.ok [JsNum.num 1]) (fun s => s) "m" []
        "observation" "o1" "text" Policy.skip).providerCalls = 1 ∧
    saveEmbedding (fun _ => Except.ok [JsNum.num 1]) (fun s => s) "m"
        (saveEmbedding (fun _ => Except.ok [JsNum.num 1]) (fun s => s) "m" []
          "observation" "o1" "text" Policy.skip).rows
        "observation" "o1" "text" Policy.skip =
      ⟨(saveEmbedding (fun _ => Except.ok [JsNum.num 1]) (fun s => s) "m" []
          "observation" "o1" "text" Policy.skip).rows, 0⟩ :=
  C3_skip_dedup (fun _ => Except.ok [JsNum.num 1]) (fun s => s) "m" []
    "observation" "o1" "text" [JsNum.num 1] rfl rfl

theorem saveEmbedding_replace_filter (provider : String → Except JsError (List JsNum))
    (hash : String → String) (modelName : String) (rows : List EmbRow)
    (sourceType sourceId content : String) (v : List JsNum)
    (hp : provider content = Except.ok v)
    (hc : (rows.filter (matchesReplace sourceId sourceType)).length ≤ 1) :
    (saveEmbedding provider hash modelName rows sourceType sourceId content
        Policy.replace).rows.filter (matchesReplace sourceId sourceType) =
      [⟨sourceType, sourceId, hash content, some v, modelName⟩] := by
  have hmatch : matchesReplace sourceId sourceType
      (⟨sourceType, sourceId, hash content, some v, modelName⟩ : EmbRow) = true := by
    simp [matchesReplace]
  cases hfind : rows.find? (matchesReplace sourceId sourceType) with
  | none =>
      have hnil : rows.filter (matchesReplace sourceId sourceType) = [] :=
        filter_eq_nil_of_find?_none hfind
      simp [saveEmbedding, hfind, hp, List.filter_append, hnil, hmatch]
  | some x =>
      have hnil : (rows.eraseP (matchesReplace sourceId sourceType)).filter
          (matchesReplace sourceId sourceType) = [] := filter_eraseP_eq_nil hc
      simp [saveEmbedding, hfind, hp, List.filter_append, hnil, hmatch]

/-- C4.  Under the `replace` policy, `saveEmbedding` deletes the existing
embedding for the `(sourceType, sourceId)` pair (regardless of content hash)
and persists a fresh one: starting from at most one current embedding and a
succeeding provider, each save leaves exactly one embedding for the pair,
and after saving `t1` then `t2` the surviving embedding's vector is the one
computed from the most recent text `t2`.  `saveWorkflowEmbedding` preserves
the same invariant for workflows. -/
theorem C4_replace_policy (provider : String → Except JsError (List JsNum))
    (hash : String → String) (modelName : String) (rows : List EmbRow)
    (sourceType sourceId t1 t2 : String) (v1 v2 : List JsNum)
    (h1 : provider t1 = Except.ok v1) (h2 : provider t2 = Except.ok v2)
    (hc : (rows.filter (matchesReplace sourceId sourceType)).length ≤ 1) :
    ((saveEmbedding provider hash modelName rows sourceType sourceId t1
        Policy.replace).rows.filter (matchesReplace sourceId sourceType)).length
      = 1 ∧
    ((saveEmbedding provider hash modelName
        (saveEmbedding provider hash modelName rows sourceType sourceId t1
          Policy.replace).rows sourceType sourceId t2
        Policy.replace).rows.filter (matchesReplace sourceId sourceType)).length
      = 1 ∧
    (∀ r ∈ (saveEmbedding provider hash modelName
        (saveEmbedding provider hash modelName rows sourceType sourceId t1
          Policy.replace).rows sourceType sourceId t2
        Policy.replace).rows.filter (matchesReplace sourceId sourceType),
      r.vector = some v2 ∧ r.content_hash = hash t2) ∧
    (∀ wfRows : List EmbRow, ∀ workflowId content : String, ∀ w : List JsNum,
      provider content = Except.ok w →
      (wfRows.filter (matchesReplace workflowId "workflow")).length ≤ 1 →
      ((saveWorkflowEmbedding provider hash modelName wfRows workflowId
          content).rows.filter (matchesReplace workflowId "workflow")).length = 1) := by
  have f1 := saveEmbedding_replace_filter provider hash modelName rows sourceType
    sourceId t1 v1 h1 hc
  have hc1 : ((saveEmbedding provider hash modelName rows sourceType sourceId t1
      Policy.replace).rows.filter (matchesReplace sourceId sourceType)).length ≤ 1 := by
    rw [f1]; simp
  have f2 := saveEmbedding_replace_filter provider hash modelName
    (saveEmbedding provider hash modelName rows sourceType sourceId t1
      Policy.replace).rows sourceType sourceId t2 v2 h2 hc1
  refine ⟨by rw [f1]; rfl, by rw [f2]; rfl, ?_, ?_⟩
  · intro r hr
    rw [f2] at hr
    rcases List.mem_singleton.mp hr with rfl
    exact ⟨rfl, rfl⟩
  · intro wfRows workflowId content w hw hcw
    have hmatch : matchesReplace workflowId "workflow"
        (⟨"workflow", workflowId, hash content, some w, modelName⟩ : EmbRow) = true := by
      simp [matchesReplace]
    cases hfind : wfRows.find? (matchesReplace workflowId "workflow") with
    | none =>
        have hnil : wfRows.filter (matchesReplace workflowId "workflow") = [] :=
          filter_eq_nil_of_find?_none hfind
        simp [saveWorkflowEmbedding, hw, hfind, List.filter_append, hnil, hmatch]
    | some x =>
        have hnil : (wfRows.eraseP (matchesReplace workflowId "workflow")).filter
            (matchesReplace workflowId "workflow") = [] := filter_eraseP_eq_nil hcw
        simp [saveWorkflowEmbedding, hw, hfind, List.filter_append, hnil, hmatch]

/-- C4, witness: the theorem at a concrete store holding one stale workflow
embedding, with a provider mapping each text to a distinct vector. -/
theorem C4_witness :
    ((saveEmbedding
        (fun s => Except.ok [JsNum.num (if s = "new" then 2 else 1)]) (fun s => s)
        "m" [⟨"workflow", "w1", "old", some [JsNum.num 1], "m"⟩]
        "workflow" "w1" "old" Policy.replace).rows.filter
        (matchesReplace "w1" "workflow")).length = 1 ∧
    ((saveEmbedding (fun s => Except.ok [JsNum.num (if s = "new" then 2 else 1)])
        (fun s => s) "m"
        (saveEmbedding (fun s => Except.ok [JsNum.num (if s = "new" then 2 else 1)])
          (fun s => s) "m" [⟨"workflow", "w1", "old", some [JsNum.num 1], "m"⟩]
          "workflow" "w1" "old" Policy.replace).rows
        "workflow" "w1" "new" Policy.replace).rows.filter
        (matchesReplace "w1" "workflow")).length = 1 ∧
    (∀ r ∈ (saveEmbedding (fun s => Except.ok [JsNum.num (if s = "new" then 2 else 1)])
        (fun s => s) "m"
        (saveEmbedding (fun s => Except.ok [JsNum.num (if s = "new" then 2 else 1)])
          (fun s => s) "m" [⟨"workflow", "w1", "old", some [JsNum.num 1], "m"⟩]
          "workflow" "w1" "old" Policy.replace).rows
        "workflow" "w1" "new" Policy.replace).rows.filter
        (matchesReplace "w1" "workflow"),
      r.vector = some [JsNum.num (if "new" = "new" then 2 else 1)] ∧
      r.content_hash = "new") ∧
    (∀ wfRows : List EmbRow, ∀ workflowId content : String, ∀ w : List JsNum,
      (Except.ok [JsNum.num (if content = "new" then 2 else 1)]
          : Except JsError (List JsNum)) = Except.ok w →
      (wfRows.filter (matchesReplace workflowId "workflow")).length ≤ 1 →
      ((saveWorkflowEmbedding
          (fun s => Except.ok [JsNum.num (if s = "new" then 2 else 1)]) (fun s => s)
          "m" wfRows workflowId content).rows.filter
          (matchesReplace workflowId "workflow")).length = 1) :=
  C4_replace_policy (fun s => Except.ok [JsNum.num (if s = "new" then 2 else 1)])
    (fun s => s) "m" [⟨"workflow", "w1", "old", some [JsNum.num 1], "m"⟩]
    "workflow" "w1" "old" "new" [JsNum.num (if "old" = "new" then 2 else 1)]
    [JsNum.num (if "new" = "new" then 2 else 1)] rfl rfl (by simp [matchesReplace])

/-- Rows whose vector survives the validity check of the `semanticSearch`
candidate loop: present, an array, and non-empty. -/
def hasValidVector (r : EmbRow) : Bool :=
  match r.vector with
  | none => false
  | some v => decide (v.length ≠ 0)

theorem processEmbedding_invalid (q : List JsNum) (sourceTypes : List String)
    (threshold : ℝ) (fetch : String → String → Option Rec)
    (now decayDays rw iw ws : ℝ) (emb : EmbRow)
    (h : hasValidVector emb = false) :
    processEmbedding q sourceTypes threshold fetch now decayDays rw iw ws emb
      = none := by
  unfold processEmbedding
  split
  · rfl
  cases hv : emb.vector with
  | none => simp [hv]
  | some v =>
      have hl : v = [] := by
        simpa [hasValidVector, hv] using h
      simp [hv, hl]

theorem filterMap_congr_invalid {α β : Type} (f : α → Option β) (g : α → Bool)
    (hfg : ∀ a, g a = false → f a = none) :
    ∀ l : List α, l.filterMap f = (l.filter g).filterMap f := by
  intro l
  induction l with
  | nil => rfl
  | cons x l ih =>
      cases hg : g x with
      | true => simp [List.filter_cons, hg, List.filterMap_cons, ih]
      | false =>
          simp [List.filter_cons, hg, List.filterMap_cons, hfg x hg, ih]

theorem processEmbedding_some_inv {q : List JsNum} {sourceTypes : List String}
    {threshold : ℝ} {fetch : String → String → Option Rec}
    {now decayDays rw iw ws : ℝ} {emb : EmbRow} {s : Score}
    (h : processEmbedding q sourceTypes threshold fetch now decayDays rw iw ws emb
      = some s) :
    jlt s.similarity (JsNum.num threshold) = false ∧
    s.sourceType = emb.source_type ∧ s.sourceId = emb.source_id ∧
    ∃ coll rec, COLLECTION_MAP emb.source_type = some coll ∧
      fetch coll emb.source_id = some rec ∧
      s.recencyScore = round2 (recencyScore ((now - rec.created) / 86400000) decayDays) ∧
      s.importanceScore = round2 (importanceOf emb.source_type rec) ∧
      s.finalScore = jround2 (finalScoreOf s.similarity
        (recencyScore ((now - rec.created) / 86400000) decayDays)
        (importanceOf emb.source_type rec) rw iw ws) ∧
      s.created = rec.created := by
  unfold processEmbedding at h
  split at h
  · exact Option.noConfusion h
  cases hv : emb.vector with
  | none => simp only [hv] at h; exact Option.noConfusion h
  | some v =>
  simp only [hv] at h
  by_cases hl : v.length = 0
  · simp [hl] at h
  simp only [hl, if_false] at h
  cases hcos : cosineSimilarity q v with
  | error e => simp only [hcos] at h; exact Option.noConfusion h
  | ok sim =>
  simp only [hcos] at h
  by_cases hth : jlt sim (JsNum.num threshold) = true
  · simp [hth] at h
  simp only [Bool.not_eq_true] at hth
  simp only [hth, Bool.false_eq_true, if_false] at h
  cases hcoll : COLLECTION_MAP emb.source_type with
  | none => simp only [hcoll] at h; exact Option.noConfusion h
  | some coll =>
  simp only [hcoll] at h
  cases hfetch : fetch coll emb.source_id with
  | none => simp only [hfetch] at h; exact Option.noConfusion h
  | some rec =>
  simp only [hfetch] at h
  have hs := Option.some.inj h
  subst hs
  exact ⟨hth, rfl, rfl, coll, rec, rfl, hfetch, rfl, rfl, rfl, rfl⟩

theorem buildEntry_some_inv {fetch : String → String → Option Rec} {s : Score}
    {e : SemEntry} (h : buildEntry fetch s = some e) :
    e.similarity = jround2 s.similarity ∧ e.recency_score = s.recencyScore ∧
    e.importance_score = s.importanceScore ∧ e.final_score = s.finalScore := by
  unfold buildEntry at h
  cases hcoll : COLLECTION_MAP s.sourceType with
  | none => simp only [hcoll] at h; exact Option.noConfusion h
  | some coll =>
  simp only [hcoll] at h
  cases hfetch : fetch coll s.sourceId with
  | none => simp only [hfetch] at h; exact Option.noConfusion h
  | some rec =>
  simp only [hfetch] at h
  have := Option.some.inj h
  subst this
  exact ⟨rfl, rfl, rfl, rfl⟩

theorem mem_insertDescBy {α : Type} (key : α → JsNum) (x a : α) :
    ∀ l : List α, a ∈ insertDescBy key x l ↔ a = x ∨ a ∈ l := by
  intro l
  induction l with
  | nil => simp [insertDescBy]
  | cons y ys ih =>
      unfold insertDescBy
      cases hxy : jlt (key x) (key y) with
      | true =>
          simp only [if_pos rfl]
          constructor
          · intro hm
            rcases List.mem_cons.mp hm with h | h
            · exact Or.inr (h ▸ List.mem_cons_self y ys)
            · rcases ih.mp h with h | h
              · exact Or.inl h
              · exact Or.inr (List.mem_cons_of_mem y h)
          · intro hm
            rcases hm with h | h
            · exact List.mem_cons_of_mem y (ih.mpr (Or.inl h))
            · rcases List.mem_cons.mp h with h | h
              · exact h ▸ List.mem_cons_self y _
              · exact List.mem_cons_of_mem y (ih.mpr (Or.inr h))
      | false => simp [List.mem_cons]

theorem mem_sortByKeyDesc {α : Type} (key : α → JsNum) (a : α) :
    ∀ l : List α, a ∈ sortByKeyDesc key l ↔ a ∈ l := by
  intro l
  induction l with
  | nil => simp [sortByKeyDesc]
  | cons x xs ih =>
      unfold sortByKeyDesc
      rw [mem_insertDescBy, ih, List.mem_cons]

theorem jle_total_num {a b : ℝ} (h : JsNum.jlt (JsNum.num a) (JsNum.num b) = false) :
    JsNum.jle (JsNum.num b) (JsNum.num a) = true := by
  simp at h ⊢
  exact h

theorem jle_trans_num {x y z : JsNum}
    (hx : ∃ r, x = JsNum.num r) (hy : ∃ r, y = JsNum.num r) (hz : ∃ r, z = JsNum.num r)
    (h1 : jle x y = true) (h2 : jle y z = true) : jle x z = true := by
  rcases hx with ⟨a, rfl⟩
  rcases hy with ⟨b, rfl⟩
  rcases hz with ⟨c, rfl⟩
  simp at h1 h2 ⊢
  exact le_trans h1 h2

theorem pairwise_insertDescBy {α : Type} (key : α → JsNum) (x : α) (l : List α)
    (hx : ∃ r, key x = JsNum.num r) (hl : ∀ a ∈ l, ∃ r, key a = JsNum.num r)
    (h : l.Pairwise (fun a b => jle (key b) (key a) = true)) :
    (insertDescBy key x l).Pairwise (fun a b => jle (key b) (key a) = true) := by
  induction l with
  | nil => simp [insertDescBy]
  | cons y ys ih =>
      have hy : ∃ r, key y = JsNum.num r := hl y (List.mem_cons_self y ys)
      have hys : ∀ a ∈ ys, ∃ r, key a = JsNum.num r :=
        fun a ha => hl a (List.mem_cons_of_mem y ha)
      rcases List.pairwise_cons.mp h with ⟨hyall, hpys⟩
      unfold insertDescBy
      cases hxy : jlt (key x) (key y) with
      | true =>
          simp only [hxy, if_true]
          rw [List.pairwise_cons]
          constructor
          · intro a ha
            rcases (mem_insertDescBy key x a ys).mp ha with h | h
            · subst h
              rcases hx with ⟨rx, hrx⟩
              rcases hy with ⟨ry, hry⟩
              rw [hrx, hry] at hxy ⊢
              simp at hxy ⊢
              exact le_of_lt hxy
            · exact hyall a h
          · exact ih hys hpys
      | false =>
          simp only [hxy, Bool.false_eq_true, if_false]
          rw [List.pairwise_cons]
          constructor
          · intro a ha
            rcases List.mem_cons.mp ha with h | h
            · subst h
              rcases hx with ⟨rx, hrx⟩
              rcases hy with ⟨ry, hry⟩
              rw [hrx, hry] at hxy ⊢
              exact jle_total_num hxy
            · have hxy' : jle (key y) (key x) = true := by
                rcases hx with ⟨rx, hrx⟩
                rcases hy with ⟨ry, hry⟩
                rw [hrx, hry] at hxy ⊢
                exact jle_total_num hxy
              exact jle_trans_num (hys a h) hy hx (hyall a h) hxy'
          · exact List.pairwise_cons.mpr ⟨hyall, hpys⟩

theorem pairwise_sortByKeyDesc {α : Type} (key : α → JsNum) (l : List α)
    (hl : ∀ a ∈ l, ∃ r, key a = JsNum.num r) :
    (sortByKeyDesc key l).Pairwise (fun a b => jle (key b) (key a) = true) := by
  induction l with
  | nil => simp [sortByKeyDesc]
  | cons x xs ih =>
      unfold sortByKeyDesc
      have hx : ∃ r, key x = JsNum.num r := hl x (List.mem_cons_self x xs)
      have hxs : ∀ a ∈ xs, ∃ r, key a = JsNum.num r :=
        fun a ha => hl a (List.mem_cons_of_mem x ha)
      exact pairwise_insertDescBy key x (sortByKeyDesc key xs) hx
        (fun a ha => hxs a ((mem_sortByKeyDesc key a xs).mp ha)) (ih hxs)

theorem semanticSearch_ok_of_ok (q : List JsNum) (rows : List EmbRow)
    (fetch : String → String → Option Rec) (now : ℝ) (input : SemInput) :
    ∃ out, semanticSearch (Except.ok q) rows fetch now input = Except.ok out :=
  ⟨_, rfl⟩

theorem wfScoreLoop_skips_null (q : List JsNum) :
    ∀ rows : List EmbRow,
      wfScoreLoop q rows = wfScoreLoop q (rows.filter (fun r => r.vector.isSome)) := by
  intro rows
  induction rows with
  | nil => rfl
  | cons emb rest ih =>
      cases hv : emb.vector with
      | none =>
          have hfil : (emb :: rest).filter (fun r => r.vector.isSome) =
              rest.filter (fun r => r.vector.isSome) := by
            simp [List.filter_cons, hv]
          rw [hfil, ← ih]
          simp only [wfScoreLoop, hv]
      | some v =>
          have hfil : (emb :: rest).filter (fun r => r.vector.isSome) =
              emb :: rest.filter (fun r => r.vector.isSome) := by
            simp [List.filter_cons, hv]
          rw [hfil]
          simp only [wfScoreLoop, hv]
          rw [ih]

theorem wfScoreLoop_sim_ge (q : List JsNum) :
    ∀ rows : List EmbRow, ∀ scores : List WfScore,
      wfScoreLoop q rows = Except.ok scores →
      ∀ s ∈ scores, jle (JsNum.num 0.5) s.similarity = true := by
  intro rows
  induction rows with
  | nil =>
      intro scores h s hs
      simp only [wfScoreLoop] at h
      cases h
      simp at hs
  | cons emb rest ih =>
      intro scores h s hs
      unfold wfScoreLoop at h
      cases hv : emb.vector with
      | none =>
          simp only [hv] at h
          exact ih scores h s hs
      | some v =>
          simp only [hv] at h
          cases hcos : cosineSimilarity q v with
          | error e => simp only [hcos] at h; exact Except.noConfusion h
          | ok sim =>
              simp only [hcos] at h
              cases hrest : wfScoreLoop q rest with
              | error e => simp only [hrest] at h; exact Except.noConfusion h
              | ok tail =>
                  simp only [hrest] at h
                  cases hok : jle (JsNum.num 0.5) sim with
                  | true =>
                      rw [if_pos hok] at h
                      cases h
                      rcases List.mem_cons.mp hs with h | h
                      · subst h; exact hok
                      · exact ih _ hrest s h
                  | false =>
                      rw [if_neg (by simp [hok])] at h
                      cases h
                      exact ih _ hrest s hs

theorem finalScoreOf_num (s recency importance rw iw ws : ℝ) :
    finalScoreOf (JsNum.num s) recency importance rw iw ws =
      JsNum.num (s * ws + recency * rw + importance * iw) := by
  simp [finalScoreOf]

/-- C8.  Error propagation is asymmetric between store and search: a
provider failure inside `saveEmbedding` is caught — the call returns
normally with the store reflecting only the work done before the failure
(unchanged under `skip`; the deletion persists under `replace`), in both
cases after 1 provider call and with no error escaping; a query-embedding
failure makes `semanticSearch` fail with that same error; but when the
query embeds, the search always succeeds, and every surviving candidate has
a successfully fetched owner record — candidates whose owner is missing are
excluded without aborting the batch. -/
theorem C8_error_asymmetry :
    (∀ (provider : String → Except JsError (List JsNum)) (hash : String → String)
      (modelName : String) (rows : List EmbRow)
      (sourceType sourceId content : String) (e : JsError),
      provider content = Except.error e →
      rows.find? (matchesSkip sourceId (hash content)) = none →
      saveEmbedding provider hash modelName rows sourceType sourceId content
        Policy.skip = ⟨rows, 1⟩) ∧
    (∀ (provider : String → Except JsError (List JsNum)) (hash : String → String)
      (modelName : String) (rows : List EmbRow)
      (sourceType sourceId content : String) (e : JsError) (x : EmbRow),
      provider content = Except.error e →
      rows.find? (matchesReplace sourceId sourceType) = some x →
      saveEmbedding provider hash modelName rows sourceType sourceId content
        Policy.replace =
        ⟨rows.eraseP (matchesReplace sourceId sourceType), 1⟩) ∧
    (∀ (e : JsError) (rows : List EmbRow) (fetch : String → String → Option Rec)
      (now : ℝ) (input : SemInput),
      semanticSearch (Except.error e) rows fetch now input = Except.error e) ∧
    (∀ (q : List JsNum) (rows : List EmbRow) (fetch : String → String → Option Rec)
      (now : ℝ) (input : SemInput),
      ∃ out, semanticSearch (Except.ok q) rows fetch now input = Except.ok out) ∧
    (∀ (q : List JsNum) (rows : List EmbRow) (fetch : String → String → Option Rec)
      (now : ℝ) (input : SemInput) (s : Score),
      s ∈ semanticScores q rows fetch now input →
      ∃ coll rec, COLLECTION_MAP s.sourceType = some coll ∧
        fetch coll s.sourceId = some rec) := by
  refine ⟨?_, ?_, ?_, ?_, ?_⟩
  · intro provider hash modelName rows sourceType sourceId content e hp h0
    simp [saveEmbedding, h0, hp]
  · intro provider hash modelName rows sourceType sourceId content e x hp hfind
    simp [saveEmbedding, hfind, hp]
  · intro e rows fetch now input
    rfl
  · intro q rows fetch now input
    exact semanticSearch_ok_of_ok q rows fetch now input
  · intro q rows fetch now input s hs
    simp only [semanticScores] at hs
    rcases List.mem_filterMap.mp hs with ⟨emb, _, hsome⟩
    rcases processEmbedding_some_inv hsome with
      ⟨_, htype, hid, coll, rec, hcoll, hfetch, _⟩
    exact ⟨coll, rec, by rw [htype]; exact hcoll, by rw [hid]; exact hfetch⟩

/-!  A small concrete search state used to exercise the ranking pipeline:
one owner record fetched for every id, one stored embedding, all inputs at
their defaults, evaluated at `now = 0`.  -/

/-- Example owner record: importance 3 (so importance score `(3-1)/4 = 0.5`),
created at timestamp 0. -/
noncomputable def exRec : Rec :=
  { id := "o1", title := "T", content := "C", created := 0,
    importance := some 3, strength := none, outcome := false,
    execution_count := none }

/-- Example fetch function resolving every record to `exRec`. -/
noncomputable def exFetch : String → String → Option Rec := fun _ _ => some exRec

/-- Example `semantic_search` input with every optional field absent. -/
def exInput : SemInput :=
  { collections := none, threshold := none, limit := none,
    recency_weight := none, importance_weight := none, decay_days := none }

/-- Example stored embedding with the healthy one-dimensional vector `[1]`. -/
noncomputable def exRowOk : EmbRow :=
  { source_type := "observation", source_id := "o1", content_hash := "h",
    vector := some [JsNum.num 1], model := "m" }

/-- Example stored embedding whose vector has a non-numeric (NaN-coercing)
entry of the same length as the query vector. -/
def exRowNan : EmbRow :=
  { source_type := "observation", source_id := "o1", content_hash := "h",
    vector := some [JsNum.nan], model := "m" }

theorem similarityWeight_defaults : similarityWeight 0.3 0.2 = 1 / 2 := by
  rw [similarityWeight, max_eq_right] <;> norm_num

theorem cosineSimilarity_one_one :
    cosineSimilarity [JsNum.num 1] [JsNum.num 1] = Except.ok (JsNum.num 1) := by
  have h := cosineSimilarity_real [1] [1] rfl
  simp only [List.map_cons, List.map_nil] at h
  rw [h, show sumSq [1] = 1 by norm_num [sumSq],
    show dotR [1] [1] = 1 by norm_num [dotR],
    jsqrt_num_of_nonneg (by norm_num : (0:ℝ) ≤ 1), Real.sqrt_one, jmul_num_num,
    jdiv_num_num_of_ne (by norm_num)]
  norm_num

theorem cosineSimilarity_one_nan :
    cosineSimilarity [JsNum.num 1] [JsNum.nan] = Except.ok JsNum.nan := by
  unfold cosineSimilarity
  rw [if_neg (by simp)]
  simp [cosAccum]

theorem exRec_importance : importanceOf "observation" exRec = 1 / 2 := by
  simp [importanceOf, exRec]
  norm_num

theorem exRec_recency : recencyScore ((0 - exRec.created) / 86400000) 30 = 1 := by
  simp [recencyScore, exRec]

theorem processEmbedding_exRowOk :
    processEmbedding [JsNum.num 1] defaultSourceTypes 0.7 exFetch 0 30 0.3 0.2
      (similarityWeight 0.3 0.2) exRowOk =
      some { sourceType := "observation", sourceId := "o1",
             similarity := JsNum.num 1, recencyScore := 1, importanceScore := 1 / 2,
             finalScore := JsNum.num (9 / 10), created := 0 } := by
  unfold processEmbedding
  rw [if_neg (fun hn => hn (by decide))]
  simp only [exRowOk]
  rw [if_neg (by simp), cosineSimilarity_one_one]
  simp only [exFetch, jlt_num_num, similarityWeight_defaults, finalScoreOf_num,
    exRec_recency, exRec_importance,
    show COLLECTION_MAP "observation" = some "observations" from rfl]
  rw [if_neg (by norm_num)]
  simp only [exRec, jround2_num, Option.some.injEq, Score.mk.injEq]
  norm_num [round2]

theorem processEmbedding_exRowNan :
    processEmbedding [JsNum.num 1] defaultSourceTypes 0.7 exFetch 0 30 0.3 0.2
      (similarityWeight 0.3 0.2) exRowNan =
      some { sourceType := "observation", sourceId := "o1",
             similarity := JsNum.nan, recencyScore := 1, importanceScore := 1 / 2,
             finalScore := JsNum.nan, created := 0 } := by
  unfold processEmbedding
  rw [if_neg (fun hn => hn (by decide))]
  simp only [exRowNan]
  rw [if_neg (by simp), cosineSimilarity_one_nan]
  simp only [exFetch, jlt_nan_left, exRec_recency, exRec_importance,
    show ∀ r i rw iw ws : ℝ,
      finalScoreOf JsNum.nan r i rw iw ws = JsNum.nan from fun _ _ _ _ _ => by
        simp [finalScoreOf],
    show COLLECTION_MAP "observation" = some "observations" from rfl]
  rw [if_neg (by simp)]
  simp only [exRec, jround2_nan, Option.some.injEq, Score.mk.injEq]
  norm_num [round2]

theorem semanticScores_exOk :
    semanticScores [JsNum.num 1] [exRowOk] exFetch 0 exInput =
      [{ sourceType := "observation", sourceId := "o1",
         similarity := JsNum.num 1, recencyScore := 1, importanceScore := 1 / 2,
         finalScore := JsNum.num (9 / 10), created := 0 }] := by
  simp only [semanticScores, exInput, nullishDefault, Option.getD, orDefault,
    List.filterMap_cons, List.filterMap_nil, processEmbedding_exRowOk]

theorem semanticScores_exNan :
    semanticScores [JsNum.num 1] [exRowNan] exFetch 0 exInput =
      [{ sourceType := "observation", sourceId := "o1",
         similarity := JsNum.nan, recencyScore := 1, importanceScore := 1 / 2,
         finalScore := JsNum.nan, created := 0 }] := by
  simp only [semanticScores, exInput, nullishDefault, Option.getD, orDefault,
    List.filterMap_cons, List.filterMap_nil, processEmbedding_exRowNan]

theorem semanticSearch_exOk :
    semanticSearch (Except.ok [JsNum.num 1]) [exRowOk] exFetch 0 exInput =
      Except.ok
        { weights := { similarity := 1 / 2, recency := 0.3, importance := 0.2,
                       decay_days := 30 },
          total := 1,
          results := [{ type := "observation", id := "o1", title := "T",
                        content := ("C" : String).take 300,
                        similarity := JsNum.num 1, recency_score := 1,
                        importance_score := 1 / 2,
                        final_score := JsNum.num (9 / 10), created := 0 }] } := by
  simp only [semanticSearch, semanticScores_exOk]
  simp only [exInput, nullishDefault, Option.getD, orDefaultNat, sortByKeyDesc,
    insertDescBy]
  rw [List.take_of_length_le (by norm_num)]
  simp only [List.filterMap_cons, List.filterMap_nil, buildEntry, exFetch, exRec,
    show COLLECTION_MAP "observation" = some "observations" from rfl, jround2_num]
  have hsw : similarityWeight (3 / 10) (1 / 5) = 1 / 2 := by
    rw [similarityWeight, max_eq_right] <;> norm_num
  norm_num [hsw, round2, SemOutput.mk.injEq, SemWeights.mk.injEq,
    SemEntry.mk.injEq]

theorem semanticSearch_exNan :
    semanticSearch (Except.ok [JsNum.num 1]) [exRowNan] exFetch 0 exInput =
      Except.ok
        { weights := { similarity := 1 / 2, recency := 0.3, importance := 0.2,
                       decay_days := 30 },
          total := 1,
          results := [{ type := "observation", id := "o1", title := "T",
                        content := ("C" : String).take 300,
                        similarity := JsNum.nan, recency_score := 1,
                        importance_score := 1 / 2,
                        final_score := JsNum.nan, created := 0 }] } := by
  simp only [semanticSearch, semanticScores_exNan]
  simp only [exInput, nullishDefault, Option.getD, orDefaultNat, sortByKeyDesc,
    insertDescBy]
  rw [List.take_of_length_le (by norm_num)]
  simp only [List.filterMap_cons, List.filterMap_nil, buildEntry, exFetch, exRec,
    show COLLECTION_MAP "observation" = some "observations" from rfl, jround2_nan]
  have hsw : similarityWeight (3 / 10) (1 / 5) = 1 / 2 := by
    rw [similarityWeight, max_eq_right] <;> norm_num
  norm_num [hsw, round2, SemOutput.mk.injEq, SemWeights.mk.injEq,
    SemEntry.mk.injEq]

/-- C1, counterexample.  The claim asserts that a stored embedding with an
empty vector is silently skipped by workflow search and never causes the
ranking pass to abort; but `findWorkflow` only checks that the vector is a
non-null array, so an empty vector array reaches `cosineSimilarity`, whose
length-mismatch error is not caught inside the candidate loop and aborts
the whole search. -/
theorem C1_counterexample :
    findWorkflow (Except.ok [JsNum.num 1])
      [{ source_type := "workflow", source_id := "w1", content_hash := "h",
         vector := some [], model := "m" }] (fun _ => none) none none =
      Except.error (mkError "Vectors must have the same length") := rfl

/-- C1, amended.  In `semanticSearch` the claim holds for null/non-array and
empty vectors: rows failing the validity check contribute nothing to the
scoring pass (dropping them leaves the scores unchanged), and the search
never aborts once the query embedding succeeded.  In workflow search only
null/non-array vectors are skipped; an empty vector array instead raises a
length-mismatch error that aborts the whole search (see the counterexample),
and a matching-length vector with a non-numeric entry yields NaN similarity,
which in `semanticSearch` passes the threshold test and can appear in ranked
results. -/
theorem C1_amended :
    (∀ (q : List JsNum) (rows : List EmbRow) (fetch : String → String → Option Rec)
      (now : ℝ) (input : SemInput),
      semanticScores q rows fetch now input =
        semanticScores q (rows.filter hasValidVector) fetch now input) ∧
    (∀ (q : List JsNum) (rows : List EmbRow) (fetch : String → String → Option Rec)
      (now : ℝ) (input : SemInput),
      ∃ out, semanticSearch (Except.ok q) rows fetch now input = Except.ok out) ∧
    (∀ (q : List JsNum) (rows : List EmbRow),
      wfScoreLoop q rows = wfScoreLoop q (rows.filter (fun r => r.vector.isSome))) := by
  refine ⟨?_, ?_, ?_⟩
  · intro q rows fetch now input
    simp only [semanticScores]
    exact filterMap_congr_invalid _ hasValidVector
      (fun r h => processEmbedding_invalid _ _ _ _ _ _ _ _ _ r h) rows
  · intro q rows fetch now input
    exact semanticSearch_ok_of_ok q rows fetch now input
  · intro q rows
    exact wfScoreLoop_skips_null q rows

/-- C9, counterexample.  The claim asserts that every entry of a search
result list has raw similarity at or above the threshold; but a stored
vector of matching length with a non-numeric entry produces NaN similarity,
which is not below the threshold (`NaN < t` is false) and therefore
survives the filter and appears in the ranked results, while NaN is not at
or above 0.7 either. -/
theorem C9_counterexample :
    (semanticScores [JsNum.num 1] [exRowNan] exFetch 0 exInput).map
        (fun s => s.similarity) = [JsNum.nan] ∧
    (semanticSearch (Except.ok [JsNum.num 1]) [exRowNan] exFetch 0 exInput).map
        (fun out => out.results.map (fun e => e.similarity)) =
      Except.ok [JsNum.nan] ∧
    jle (JsNum.num 0.7) JsNum.nan = false := by
  refine ⟨?_, ?_, rfl⟩
  · rw [semanticScores_exNan]
    rfl
  · rw [semanticSearch_exNan]
    rfl

/-- C9, amended.  Every surviving candidate's raw similarity is *not
strictly below* the threshold (at or above it whenever the similarity is a
genuine number; NaN also passes); the result list has at most `limit`
entries (default 5; threshold default 0.7), `total` reports its length, the
results are sorted descending by final score whenever the final scores are
genuine numbers, and each entry is annotated with the component scores of
the candidate it was built from.  In workflow search every kept candidate
has raw similarity at least the hardcoded 0.5 threshold. -/
theorem C9_amended :
    (∀ (q : List JsNum) (rows : List EmbRow) (fetch : String → String → Option Rec)
      (now : ℝ) (input : SemInput) (s : Score),
      s ∈ semanticScores q rows fetch now input →
      jlt s.similarity (JsNum.num (orDefault input.threshold 0.7)) = false) ∧
    (∀ (q : List JsNum) (rows : List EmbRow) (fetch : String → String → Option Rec)
      (now : ℝ) (input : SemInput) (out : SemOutput),
      semanticSearch (Except.ok q) rows fetch now input = Except.ok out →
      out.results.length ≤ orDefaultNat input.limit 5 ∧
      out.total = out.results.length ∧
      ((∀ s ∈ semanticScores q rows fetch now input, ∃ r, s.finalScore = JsNum.num r) →
        out.results.Pairwise (fun e1 e2 => jle e2.final_score e1.final_score = true)) ∧
      (∀ e ∈ out.results, ∃ s ∈ semanticScores q rows fetch now input,
        e.similarity = jround2 s.similarity ∧ e.recency_score = s.recencyScore ∧
        e.importance_score = s.importanceScore ∧ e.final_score = s.finalScore)) ∧
    orDefault none 0.7 = (0.7 : ℝ) ∧ orDefaultNat none 5 = 5 ∧
    (∀ (q : List JsNum) (rows : List EmbRow) (scores : List WfScore),
      wfScoreLoop q rows = Except.ok scores →
      ∀ s ∈ scores, jle (JsNum.num 0.5) s.similarity = true) := by
  refine ⟨?_, ?_, rfl, rfl, wfScoreLoop_sim_ge⟩
  · intro q rows fetch now input s hs
    simp only [semanticScores] at hs
    rcases List.mem_filterMap.mp hs with ⟨emb, _, hsome⟩
    exact (processEmbedding_some_inv hsome).1
  · intro q rows fetch now input out h
    simp only [semanticSearch] at h
    have h2 := Except.ok.inj h
    subst h2
    refine ⟨?_, rfl, ?_, ?_⟩
    · exact le_trans (List.length_filterMap_le _ _) (List.length_take_le _ _)
    · intro hnum
      have hsorted := pairwise_sortByKeyDesc (fun s : Score => s.finalScore)
        (semanticScores q rows fetch now input)
        (fun a ha => hnum a ha)
      have htake := hsorted.sublist (List.take_sublist (orDefaultNat input.limit 5) _)
      refine List.pairwise_filterMap.mpr (htake.imp ?_)
      intro a b hab e1 he1 e2 he2
      have h1 := buildEntry_some_inv (Option.mem_def.mp he1)
      have h2 := buildEntry_some_inv (Option.mem_def.mp he2)
      rw [h1.2.2.2, h2.2.2.2]
      exact hab
    · intro e he
      rcases List.mem_filterMap.mp he with ⟨s, hs, hbuild⟩
      have hmem : s ∈ semanticScores q rows fetch now input :=
        (mem_sortByKeyDesc _ s _).mp (List.mem_of_mem_take hs)
      exact ⟨s, hmem, (buildEntry_some_inv hbuild).1, (buildEntry_some_inv hbuild).2.1,
        (buildEntry_some_inv hbuild).2.2.1, (buildEntry_some_inv hbuild).2.2.2⟩

theorem wfScoreLoop_example :
    wfScoreLoop [JsNum.num 1]
      [{ source_type := "workflow", source_id := "w1", content_hash := "h",
         vector := some [JsNum.num 1], model := "m" }] =
      Except.ok [{ id := "w1", similarity := JsNum.num 1 }] := by
  simp only [wfScoreLoop, cosineSimilarity_one_one]
  rw [if_pos]
  simp only [jle_num_num, decide_eq_true_eq]
  norm_num

/-- C9, witness: the amended theorem exercised on the concrete healthy
search state (one valid stored embedding, similarity 1, all defaults) and
the concrete workflow state. -/
theorem C9_witness :
    jlt (JsNum.num 1) (JsNum.num (orDefault exInput.threshold 0.7)) = false ∧
    ([({ type := "observation", id := "o1", title := "T",
         content := ("C" : String).take 300, similarity := JsNum.num 1,
         recency_score := 1, importance_score := 1 / 2,
         final_score := JsNum.num (9 / 10), created := 0 } : SemEntry)].length ≤
      orDefaultNat exInput.limit 5) ∧
    ([({ type := "observation", id := "o1", title := "T",
         content := ("C" : String).take 300, similarity := JsNum.num 1,
         recency_score := 1, importance_score := 1 / 2,
         final_score := JsNum.num (9 / 10), created := 0 } : SemEntry)].Pairwise
      (fun e1 e2 => jle e2.final_score e1.final_score = true)) ∧
    jle (JsNum.num 0.5) (JsNum.num 1) = true := by
  have hmem : (⟨"observation", "o1", JsNum.num 1, 1, 1 / 2,
      JsNum.num (9 / 10), 0⟩ : Score) ∈
      semanticScores [JsNum.num 1] [exRowOk] exFetch 0 exInput := by
    rw [semanticScores_exOk]
    exact List.mem_singleton.mpr rfl
  have hout := C9_amended.2.1 [JsNum.num 1] [exRowOk] exFetch 0 exInput _
    semanticSearch_exOk
  refine ⟨C9_amended.1 [JsNum.num 1] [exRowOk] exFetch 0 exInput _ hmem,
    hout.1, ?_, ?_⟩
  · exact hout.2.2.1 (fun s hs => by
      rw [semanticScores_exOk] at hs
      rcases List.mem_singleton.mp hs with rfl
      exact ⟨9 / 10, rfl⟩)
  · exact C9_amended.2.2.2.2 [JsNum.num 1]
      [{ source_type := "workflow", source_id := "w1", content_hash := "h",
         vector := some [JsNum.num 1], model := "m" }] _ wfScoreLoop_example _
      (List.mem_singleton.mpr rfl)

/-- C8, witness: the asymmetry theorem exercised on concrete states — a
failing provider under both policies, a failing query embedding, and the
healthy one-row search state. -/
theorem C8_witness :
    saveEmbedding (fun _ => Except.error (mkError "boom")) (fun s => s) "m" []
      "observation" "o1" "text" Policy.skip = ⟨[], 1⟩ ∧
    saveEmbedding (fun _ => Except.error (mkError "boom")) (fun s => s) "m"
      [{ source_type := "observation", source_id := "o1", content_hash := "h",
         vector := some [JsNum.num 1], model := "m" }]
      "observation" "o1" "text" Policy.replace =
      ⟨[({ source_type := "observation", source_id := "o1", content_hash := "h",
           vector := some [JsNum.num 1], model := "m" } : EmbRow)].eraseP
        (matchesReplace "o1" "observation"), 1⟩ ∧
    semanticSearch (Except.error (mkError "down")) [exRowOk] exFetch 0 exInput =
      Except.error (mkError "down") ∧
    (∃ out, semanticSearch (Except.ok [JsNum.num 1]) [exRowOk] exFetch 0 exInput =
      Except.ok out) ∧
    (∃ coll rec, COLLECTION_MAP "observation" = some coll ∧
      exFetch coll "o1" = some rec) := by
  have hmem : (⟨"observation", "o1", JsNum.num 1, 1, 1 / 2,
      JsNum.num (9 / 10), 0⟩ : Score) ∈
      semanticScores [JsNum.num 1] [exRowOk] exFetch 0 exInput := by
    rw [semanticScores_exOk]
    exact List.mem_singleton.mpr rfl
  refine ⟨C8_error_asymmetry.1 _ (fun s => s) "m" [] "observation" "o1" "text"
      (mkError "boom") rfl rfl,
    C8_error_asymmetry.2.1 _ (fun s => s) "m" _ "observation" "o1" "text"
      (mkError "boom") _ rfl rfl,
    C8_error_asymmetry.2.2.1 (mkError "down") [exRowOk] exFetch 0 exInput,
    C8_error_asymmetry.2.2.2.1 [JsNum.num 1] [exRowOk] exFetch 0 exInput,
    C8_error_asymmetry.2.2.2.2 [JsNum.num 1] [exRowOk] exFetch 0 exInput _ hmem⟩

end PocketMCP
